import Mathlib

/-!
Shallow embedding of the core trading pipeline of the `meshetar-tui`
repository, together with theorems settling the specification claims.

Conventions of the embedding:
* Rust `f64` money/price/quantity values are modelled as `ℚ` (the claims are
  exact algebraic relationships, no rounding behaviour is claimed);
* `DateTime<Utc>` is modelled as `Int` (milliseconds);
* `Uuid` core ids are modelled as `String`;
* Rust `HashMap` fields of `Database` are modelled as association lists with
  first-match lookup, in-place replacement on insert and first-match removal;
* fallible Rust functions return `Except`; in-place mutation is explicit
  state passing, so an operation that errors after mutating the database
  returns the mutated database together with the error, exactly as the
  `?`-operator leaves the shared `Database` in the source.

Modules of the repository that are declared but whose files are not part of
the source tree (`portfolio/position.rs`, `statistic`, `events`, the
`utils` module-level helpers) are modelled from the spec; each such
definition carries a doc comment saying so.
-/

namespace Meshetar

/-- Instrument identifier, from `src/assets/mod.rs` (`enum Pair`). -/
inductive Pair where
  | BTCUSDT
  | ETHBTC
deriving DecidableEq, Repr

/-- Serialisation of a `Pair` as its symbol string (strum `Display`). -/
def Pair.toString : Pair → String
  | .BTCUSDT => "BTCUSDT"
  | .ETHBTC => "ETHBTC"

/-- Order side, from `src/assets/mod.rs` (`enum Side`). -/
inductive Side where
  | Buy
  | Sell
deriving DecidableEq, Repr

/-- Strategy decision, from `src/strategy/mod.rs` (`enum Decision`). -/
inductive Decision where
  | Long
  | CloseLong
  | Short
  | CloseShort
deriving DecidableEq, Repr

/-- From `src/strategy/mod.rs`: `Decision::is_long`. -/
def Decision.is_long : Decision → Bool
  | .Long => true
  | _ => false

/-- From `src/strategy/mod.rs`: `Decision::is_short`. -/
def Decision.is_short : Decision → Bool
  | .Short => true
  | _ => false

/-- From `src/strategy/mod.rs`: `Decision::is_entry`. -/
def Decision.is_entry : Decision → Bool
  | .Short => true
  | .Long => true
  | _ => false

/-- From `src/strategy/mod.rs`: `Decision::is_exit`. -/
def Decision.is_exit : Decision → Bool
  | .CloseLong => true
  | .CloseShort => true
  | _ => false

/-- Signal strength newtype payload, from `src/strategy/mod.rs`
(`SignalStrength(pub f64)`), modelled as its rational payload. -/
abbrev SignalStrength := ℚ

/-- Market metadata attached to signals/orders/fills, from
`src/assets/mod.rs` (`struct MarketMeta`). -/
structure MarketMeta where
  close : ℚ
  time : Int
deriving DecidableEq, Repr

/-- OHLCV candle, from `src/assets/mod.rs` (`struct Candle`). -/
structure Candle where
  open_time : Int
  close_time : Int
  openPrice : ℚ
  high : ℚ
  low : ℚ
  close : ℚ
  volume : ℚ
  trade_count : Int
deriving DecidableEq, Repr

/-- Public trade detail, from `src/assets/mod.rs` (`struct PublicTrade`). -/
structure PublicTrade where
  id : String
  price : ℚ
  amount : ℚ
  side : Side
deriving DecidableEq, Repr

/-- Price level, from `src/assets/mod.rs` (`struct Level`). -/
structure Level where
  price : ℚ
  amount : ℚ
deriving DecidableEq, Repr

/-- L1 order book detail, from `src/assets/mod.rs` (`struct OrderBookL1`). -/
structure OrderBookL1 where
  last_update_time : Int
  best_bid : Level
  best_ask : Level
deriving DecidableEq, Repr

/-- Signal map: the `HashMap<Decision, SignalStrength>` of
`src/strategy/mod.rs`, modelled as an association list (it holds at most a
couple of entries; the claims do not depend on iteration order). -/
abbrev SignalsMap := List (Decision × SignalStrength)

/-- `HashMap::get_key_value` on a `SignalsMap`. -/
def SignalsMap.get_key_value (signals : SignalsMap) (d : Decision) :
    Option (Decision × SignalStrength) :=
  signals.find? (fun kv => kv.1 = d)

/-- Strategy signal, from `src/strategy/mod.rs` (`struct Signal`). -/
structure Signal where
  time : Int
  pair : Pair
  market_meta : MarketMeta
  signals : SignalsMap
deriving DecidableEq, Repr

/-- Market event payload, from `src/assets/mod.rs`
(`enum MarketEventDetail`). -/
inductive MarketEventDetail where
  | Trade (t : PublicTrade)
  | OrderBookL1Detail (o : OrderBookL1)
  | CandleDetail (c : Candle)
  | BacktestCandle (c : Candle) (s : Option Signal)
deriving DecidableEq, Repr

/-- Market event, from `src/assets/mod.rs` (`struct MarketEvent`). -/
structure MarketEvent where
  time : Int
  pair : Pair
  detail : MarketEventDetail
deriving DecidableEq, Repr

/-- Execution fees, from `src/trading/execution.rs` (`struct Fees`). -/
structure Fees where
  exchange : ℚ
  slippage : ℚ
deriving DecidableEq, Repr

/-- From `src/trading/execution.rs`: `Fees::calculate_total_fees`. -/
def Fees.calculate_total_fees (fees : Fees) (gross : ℚ) : ℚ :=
  fees.exchange * gross + fees.slippage

/-- Order event, from `src/portfolio/mod.rs` (`struct OrderEvent`). -/
structure OrderEvent where
  time : Int
  asset : Pair
  decision : Decision
  market_meta : MarketMeta
  quantity : ℚ
deriving DecidableEq, Repr

/-- Fill event, from `src/trading/execution.rs` (`struct FillEvent`). -/
structure FillEvent where
  time : Int
  asset : Pair
  market_meta : MarketMeta
  decision : Decision
  quantity : ℚ
  fill_value_gross : ℚ
  fees : Fees
deriving DecidableEq, Repr

/-- Balance, from `src/portfolio/balance.rs` (`struct Balance`). -/
structure Balance where
  time : Int
  total : ℚ
  available : ℚ
deriving DecidableEq, Repr

/-- From `src/portfolio/balance.rs`: `Balance::balance_id(core_id)` is the
string `{core_id}_balance`. -/
def Balance.balance_id (core_id : String) : String :=
  core_id ++ "_balance"

/-- Modelled from the spec: `src/portfolio/position.rs` is declared
(`pub mod position`) but its file is not part of the source tree. The spec
data model gives the Position record; field names follow the uses in
`src/portfolio/mod.rs` (`realised_profit_loss`, `enter_value_gross`, ...). -/
structure Position where
  position_id : String
  asset : Pair
  side : Side
  quantity : ℚ
  enter_time : Int
  enter_fees_total : ℚ
  enter_value_gross : ℚ
  enter_avg_price_gross : ℚ
  current_symbol_price : ℚ
  current_value_gross : ℚ
  unrealised_profit_loss : ℚ
  realised_profit_loss : ℚ
  exit_fees_total : Option ℚ
  exit_value_gross : Option ℚ
  exit_avg_price_gross : Option ℚ
  exit_time : Option Int
deriving DecidableEq, Repr

/-- Modelled from the spec: `determine_position_id` lives in the missing
`src/portfolio/position.rs`; the spec states
`position_id = f"{core_id}_{pair}"`. -/
def determine_position_id (core_id : String) (pair : Pair) : String :=
  core_id ++ "_" ++ pair.toString

/-- Modelled from the spec: position entry (spec section 4.3.1, entry path),
the code lives in the missing `src/portfolio/position.rs` and is called as
`Position::enter(self.core_id, fill)` from `src/portfolio/mod.rs`. -/
def Position.enter (core_id : String) (fill : FillEvent) : Position :=
  let enter_fees_total := fill.fees.calculate_total_fees fill.fill_value_gross
  let enter_avg_price_gross := fill.fill_value_gross / |fill.quantity|
  { position_id := determine_position_id core_id fill.asset
    asset := fill.asset
    side := if fill.decision.is_long then Side.Buy else Side.Sell
    quantity := fill.quantity
    enter_time := fill.time
    enter_fees_total := enter_fees_total
    enter_value_gross := fill.fill_value_gross
    enter_avg_price_gross := enter_avg_price_gross
    current_symbol_price := enter_avg_price_gross
    current_value_gross := fill.fill_value_gross
    unrealised_profit_loss := 0
    realised_profit_loss := 0
    exit_fees_total := none
    exit_value_gross := none
    exit_avg_price_gross := none
    exit_time := none }

/-- Modelled from the spec: position exit (spec section 4.3.1, exit path),
the code lives in the missing `src/portfolio/position.rs` and is called as
`position.exit(balance, fill)` from `src/portfolio/mod.rs`. The balance
argument is only used by the source for the emitted `PositionExit` record's
equity point, which no claim inspects. -/
def Position.exit (position : Position) (_balance : Balance)
    (fill : FillEvent) : Position :=
  let exit_value_gross := fill.fill_value_gross
  let exit_fees_total := fill.fees.calculate_total_fees exit_value_gross
  let exit_avg_price_gross := exit_value_gross / |fill.quantity|
  let realised :=
    match position.side with
    | Side.Buy =>
        (exit_avg_price_gross - position.enter_avg_price_gross) *
          |position.quantity| - position.enter_fees_total - exit_fees_total
    | Side.Sell =>
        (position.enter_avg_price_gross - exit_avg_price_gross) *
          |position.quantity| - position.enter_fees_total - exit_fees_total
  { position with
    realised_profit_loss := realised
    exit_fees_total := some exit_fees_total
    exit_value_gross := some exit_value_gross
    exit_avg_price_gross := some exit_avg_price_gross
    exit_time := some fill.time }

/-- Modelled from the spec: `PositionUpdate` delta record emitted by
`update_from_market` (the `position.rs` file is missing). Its contents are
not inspected by any claim. -/
structure PositionUpdate where
  position_id : String
  update_time : Int
  current_symbol_price : ℚ
  current_value_gross : ℚ
  unrealised_profit_loss : ℚ
deriving DecidableEq, Repr

/-- Modelled from the spec: the `statistic` module is declared in
`src/main.rs` but its file is not part of the source tree. The spec says
`TradingSummary` is a per-session aggregate built incrementally as
positions close; no claim inspects its contents, so it is modelled as the
starting time plus the list of closed positions' realised PnL it has been
updated with. -/
structure TradingSummary where
  starting_time : Int
  closed_pnls : List ℚ
deriving DecidableEq, Repr

/-- Modelled from the spec: `stats.update(&position)` records the closed
position in the per-session aggregate. -/
def TradingSummary.update (stats : TradingSummary) (position : Position) :
    TradingSummary :=
  { stats with closed_pnls := stats.closed_pnls ++ [position.realised_profit_loss] }

/-- Database error taxonomy, from `src/database/error.rs` usage in
`src/database/mod.rs` (`DatabaseError::DataMissing`). -/
inductive DatabaseError where
  | dataMissing (msg : String)
deriving DecidableEq, Repr

/-- Portfolio error, from `src/portfolio/error.rs` usage in
`src/portfolio/mod.rs` (`PortfolioError::RepositoryInteraction`). -/
inductive PortfolioError where
  | repositoryInteraction (e : DatabaseError)
deriving DecidableEq, Repr

/-- Signal requesting immediate closure of an open position, from
`src/trading/mod.rs` (`struct SignalForceExit`). -/
structure SignalForceExit where
  time : Int
  asset : Pair
deriving DecidableEq, Repr

/-- Modelled from the spec: the `events` module is declared in
`src/main.rs` but its file is not part of the source tree. The constructors
are those matched on in `src/trading/mod.rs` and produced in
`src/portfolio/mod.rs` and `src/database/mod.rs`. -/
inductive Event where
  | Market (m : MarketEvent)
  | SignalEvent (s : Signal)
  | SignalForceExitEvent (s : SignalForceExit)
  | Order (o : OrderEvent)
  | Fill (f : FillEvent)
  | PositionNew (p : Position)
  | PositionExit (p : Position)
  | PositionUpdateEvent (p : PositionUpdate)
  | BalanceEvent (b : Balance)
deriving DecidableEq, Repr

/-- First-match lookup in an association list (models `HashMap::get`). -/
def lookupKV {κ ν : Type} [DecidableEq κ] : List (κ × ν) → κ → Option ν
  | [], _ => none
  | kv :: t, k => if kv.1 = k then some kv.2 else lookupKV t k

/-- In-place replacement insert in an association list
(models `HashMap::insert`). -/
def insertKV {κ ν : Type} [DecidableEq κ] : List (κ × ν) → κ → ν → List (κ × ν)
  | [], k, v => [(k, v)]
  | kv :: t, k, v => if kv.1 = k then (k, v) :: t else kv :: insertKV t k v

/-- First-match removal in an association list (models `HashMap::remove`). -/
def removeKV {κ ν : Type} [DecidableEq κ] : List (κ × ν) → κ → List (κ × ν)
  | [], _ => []
  | kv :: t, k => if kv.1 = k then t else kv :: removeKV t k

/-- The mutable state owned by the `Database`, from `src/database/mod.rs`
(`struct Database`). Only the fields the trading pipeline reads or writes
are modelled; the exchange-account mirror, the websocket plumbing and the
SQLite candle table are untouched by the operations the claims are about
(candles reach `new_ticker` as an explicit argument). The `statistics` map
is keyed by the instrument, following its uses in `src/portfolio/mod.rs`
(`database.get_statistics(&asset)`), which is the file the claims cite. -/
structure Database where
  open_positions : List (String × Position)
  closed_positions : List (String × List Position)
  current_balances : List (String × Balance)
  statistics : List (Pair × TradingSummary)
deriving DecidableEq, Repr

/-- From `src/database/mod.rs`: `determine_exited_positions_id`. -/
def determine_exited_positions_id (core_id : String) : String :=
  "positions_exited_" ++ core_id

namespace Database

/-- From `src/database/mod.rs`: `Database::set_balance` (infallible). -/
def set_balance (db : Database) (core_id : String) (balance : Balance) :
    Database :=
  { db with current_balances :=
      insertKV db.current_balances (Balance.balance_id core_id) balance }

/-- From `src/database/mod.rs`: `Database::get_balance`; errors with
`DataMissing` when no balance is stored for the core. -/
def get_balance (db : Database) (core_id : String) :
    Except DatabaseError Balance :=
  match lookupKV db.current_balances (Balance.balance_id core_id) with
  | some balance => .ok balance
  | none => .error (.dataMissing
      ("Balance for " ++ core_id ++ " missing on database lookup."))

/-- From `src/database/mod.rs`: `Database::set_open_position`
(infallible, keyed by `position.position_id`). -/
def set_open_position (db : Database) (position : Position) : Database :=
  { db with open_positions :=
      insertKV db.open_positions position.position_id position }

/-- From `src/database/mod.rs`: `Database::get_open_position`
(an `Ok` of the optional entry). -/
def get_open_position (db : Database) (position_id : String) :
    Option Position :=
  lookupKV db.open_positions position_id

/-- From `src/database/mod.rs`: `Database::remove_position`: removes and
returns the open position stored at the id, never errors. The pair returned
here is the removed entry together with the mutated database. -/
def remove_position (db : Database) (position_id : String) :
    Option Position × Database :=
  (lookupKV db.open_positions position_id,
    { db with open_positions := removeKV db.open_positions position_id })

/-- From `src/database/mod.rs`: `Database::set_exited_position`: appends the
position to the closed-positions vector stored under
`positions_exited_{core_id}`, creating it when absent. -/
def set_exited_position (db : Database) (core_id : String)
    (position : Position) : Database :=
  let key := determine_exited_positions_id core_id
  match lookupKV db.closed_positions key with
  | none =>
      { db with closed_positions := insertKV db.closed_positions key [position] }
  | some closed =>
      { db with closed_positions :=
          insertKV db.closed_positions key (closed ++ [position]) }

/-- From `src/database/mod.rs`: `Database::get_exited_positions`. -/
def get_exited_positions (db : Database) (core_id : String) : List Position :=
  (lookupKV db.closed_positions (determine_exited_positions_id core_id)).getD []

/-- `Database::get_statistics`, keyed by the instrument as called from
`src/portfolio/mod.rs`; errors with `DataMissing` when absent (as in
`src/database/mod.rs`). -/
def get_statistics (db : Database) (asset : Pair) :
    Except DatabaseError TradingSummary :=
  match lookupKV db.statistics asset with
  | some stats => .ok stats
  | none => .error (.dataMissing
      ("Statistics for " ++ asset.toString ++ " missing on database lookup."))

/-- `Database::set_statistics` (infallible), keyed as above. -/
def set_statistics (db : Database) (asset : Pair) (stats : TradingSummary) :
    Database :=
  { db with statistics := insertKV db.statistics asset stats }

end Database

/-- From `src/portfolio/mod.rs`: `Portfolio::update_from_fill`. The source
mutates the shared `Database` in place and propagates errors with `?`;
the embedding returns the result together with the database exactly as the
operation leaves it (so a failing call exposes any mutation already made). -/
def update_from_fill (core_id : String) (fill : FillEvent) (db : Database) :
    Except PortfolioError (List Event) × Database :=
  match db.get_balance core_id with
  | .error e => (.error (.repositoryInteraction e), db)
  | .ok balance0 =>
    let balance1 : Balance := { balance0 with time := fill.time }
    let position_id := determine_position_id core_id fill.asset
    match db.remove_position position_id with
    | (some position0, db1) =>
        let position := position0.exit balance1 fill
        let balance : Balance :=
          { balance1 with
            available := balance1.available + position.enter_value_gross +
              position.realised_profit_loss + position.enter_fees_total
            total := balance1.total + position.realised_profit_loss }
        let asset := position.asset
        match db1.get_statistics asset with
        | .error e => (.error (.repositoryInteraction e), db1)
        | .ok stats0 =>
            let stats := stats0.update position
            let db2 := db1.set_statistics asset stats
            let db3 := db2.set_exited_position core_id position
            let db4 := db3.set_balance core_id balance
            (.ok [Event.PositionExit position, Event.BalanceEvent balance], db4)
    | (none, db1) =>
        let position := Position.enter core_id fill
        let balance : Balance :=
          { balance1 with
            available := balance1.available +
              (-position.enter_value_gross - position.enter_fees_total) }
        let db2 := db1.set_open_position position
        let db3 := db2.set_balance core_id balance
        (.ok [Event.PositionNew position, Event.BalanceEvent balance], db3)

/-- From `src/portfolio/mod.rs`: `parse_signal_decisions`. -/
def parse_signal_decisions (position : Option Position)
    (signals : SignalsMap) : Option (Decision × SignalStrength) :=
  let signal_close_long := signals.get_key_value Decision.CloseLong
  let signal_long := signals.get_key_value Decision.Long
  let signal_close_short := signals.get_key_value Decision.CloseShort
  let signal_short := signals.get_key_value Decision.Short
  match position with
  | some position =>
      match position.side with
      | Side.Buy => if signal_close_long.isSome then signal_close_long else none
      | Side.Sell => if signal_close_short.isSome then signal_close_short else none
  | none =>
      match signal_long, signal_short with
      | some signal_long, none => some signal_long
      | none, some signal_short => some signal_short
      | _, _ => none

/-- Spec-side restatement of claim C6's description of the net-decision
computation, for comparison against the source's `parse_signal_decisions`:
when a Position with side Buy (resp. Sell) exists, the CloseLong
(resp. CloseShort) entry if present and None otherwise; when no Position
exists, the Long entry if only Long is present, the Short entry if only
Short is present, and None when both or neither are present. -/
def parseSignalDecisionsSpec (position : Option Position)
    (signals : SignalsMap) : Option (Decision × SignalStrength) :=
  match position with
  | some position =>
      match position.side with
      | Side.Buy => signals.get_key_value Decision.CloseLong
      | Side.Sell => signals.get_key_value Decision.CloseShort
  | none =>
      match signals.get_key_value Decision.Long,
            signals.get_key_value Decision.Short with
      | some signal_long, none => some signal_long
      | none, some signal_short => some signal_short
      | _, _ => none

/-- From `src/portfolio/mod.rs`: `Portfolio::bootstrap_database` sets the
session balance to `total = available = starting_cash` on the freshly
constructed `Database` (whose maps `Database::new` creates empty). The
statistics map is left as given, since `init_statistics` is a separate
operation that may or may not have run. -/
def bootstrap_database (core_id : String) (starting_cash : ℚ) (now : Int)
    (stats : List (Pair × TradingSummary)) : Database :=
  Database.set_balance
    { open_positions := []
      closed_positions := []
      current_balances := []
      statistics := stats }
    core_id
    { time := now, total := starting_cash, available := starting_cash }

/-- States of one session's database reachable from initialisation by a
sequence of `update_from_fill` operations whose fills all satisfy `P`
(`P := fun _ => True` places no restriction). Failing operations are
included: the state a failing call leaves behind is reachable too. -/
inductive Reachable (core_id : String) (starting_cash : ℚ)
    (P : FillEvent → Prop) : Database → Prop where
  | bootstrap (now : Int) (stats : List (Pair × TradingSummary)) :
      Reachable core_id starting_cash P
        (bootstrap_database core_id starting_cash now stats)
  | step (db : Database) (fill : FillEvent)
      (hdb : Reachable core_id starting_cash P db) (hfill : P fill) :
      Reachable core_id starting_cash P (update_from_fill core_id fill db).2

/-- Sum of `realised_profit_loss` over a list of positions. -/
def pnlSum (positions : List Position) : ℚ :=
  (positions.map Position.realised_profit_loss).sum

/-- Sum of `enter_value_gross + enter_fees_total` over the open-positions
index: the cash committed to open positions. -/
def openEnterSum (l : List (String × Position)) : ℚ :=
  (l.map fun kv => kv.2.enter_value_gross + kv.2.enter_fees_total).sum

/-- Fills as produced by the pipeline: `fill_value_gross = |q| × price` is
non-negative (prices are non-negative) and the configured fee parameters
are non-negative. -/
def NonNegFill (fill : FillEvent) : Prop :=
  0 ≤ fill.fill_value_gross ∧ 0 ≤ fill.fees.exchange ∧ 0 ≤ fill.fees.slippage

/-- Decoded exchange fill, from `src/exchange/execution.rs`
(`struct ExchangeFill`). -/
structure ExchangeFill where
  qty : ℚ
  updated_at : Int
  price : ℚ
deriving DecidableEq, Repr

/-- One fill of the exchange order response, from
`src/exchange/execution.rs` (`struct ExchangeFillResponseFill`). -/
structure ExchangeFillResponseFill where
  price : ℚ
  qty : ℚ
  commission : ℚ
deriving DecidableEq, Repr

/-- Exchange order response, from `src/exchange/execution.rs`
(`struct ExchangeFillResponse`). -/
structure ExchangeFillResponse where
  transact_time : Int
  executed_qty : ℚ
  status : String
  fills : List ExchangeFillResponseFill
deriving DecidableEq, Repr

/-- Exchange error, from `src/exchange/error.rs`; only the variant produced
by the decoded-response path of `fill_order` is modelled (network and JSON
failures are outside the embedding, which takes the decoded response as
input). -/
inductive ExchangeError where
  | unfilledOrder
deriving DecidableEq, Repr

/-- Trader error, from `src/trading/error.rs`; the variants the embedded
operations produce. -/
inductive TraderError where
  | exchangeError (e : ExchangeError)
deriving DecidableEq, Repr

/-- From `src/exchange/execution.rs`: `weighted_average_price`. -/
def weighted_average_price (fills : List ExchangeFillResponseFill) :
    Option ℚ :=
  let total_weight : ℚ := (fills.map fun fill => fill.qty).sum
  if total_weight = 0 then none
  else
    let weighted_sum : ℚ := (fills.map fun fill => fill.price * fill.qty).sum
    some (weighted_sum / total_weight)

/-- From `src/exchange/execution.rs`: `fill_order`. The network send and
JSON decode are modelled by taking the decoded `ExchangeFillResponse` as an
argument; `qty` and `side` are what the source puts into the request. -/
def fill_order (response : ExchangeFillResponse) (_pair : Pair) (qty : ℚ)
    (_side : Side) : Except ExchangeError ExchangeFill :=
  let _truncated_qty : ℚ := (round (qty * 100000) : ℚ) / 100000
  let price := weighted_average_price response.fills
  if response.status = "FILLED" ∧ price.isSome then
    .ok
      { qty := response.executed_qty
        updated_at := response.transact_time
        price := price.getD 0 }
  else .error ExchangeError.unfilledOrder

/-- From `src/trading/execution.rs`: `Execution::generate_fill`. The
exchange client is modelled by the decoded response the exchange would
return for the submitted order; `now` models `Utc::now()`. The source
builds the result through `FillEventBuilder` with every field set, which
cannot fail; the embedding builds the record directly. Note the source
computes `fill_time` from `is_live_run` but never uses it, and consults the
exchange unconditionally. -/
def generate_fill (exchange_fee : ℚ) (order : OrderEvent)
    (is_live_run : Bool) (now : Int) (response : ExchangeFillResponse) :
    Except TraderError FillEvent :=
  let fill_time := if is_live_run then now else order.time
  let side := if order.decision.is_entry then Side.Buy else Side.Sell
  match fill_order response order.asset order.quantity side with
  | .error e => .error (TraderError.exchangeError e)
  | .ok exchange_execution =>
      let _ := fill_time
      .ok
        { time := exchange_execution.updated_at
          asset := order.asset
          market_meta := order.market_meta
          decision := order.decision
          quantity := exchange_execution.qty
          fill_value_gross := |exchange_execution.qty| * exchange_execution.price
          fees := { exchange := exchange_fee, slippage := 0 } }

/-- Strategy error, from `src/strategy/error.rs`. No embedded path produces
one; the type is kept for the result shape of `generate_signal`. -/
inductive StrategyError where
  | pythonError (msg : String)
deriving DecidableEq, Repr

/-- From `src/strategy/mod.rs`: `generate_signals_map`. The `HashMap` the
source fills is modelled as a `SignalsMap` list; each arm inserts at most
one entry. -/
def generate_signals_map (model_output : String) : SignalsMap :=
  match model_output with
  | "sell" => [(Decision.CloseLong, (1 : ℚ))]
  | "buy" => [(Decision.Long, (1 : ℚ))]
  | _ => []

/-- From `src/strategy/mod.rs`: `Strategy::generate_signal`. The model
adapter (`run_candle`, a Python call in the source) is modelled by the
`run_candle` argument mapping `(open_time, pair, model_name)` to a label;
`now` models `Utc::now()`. The source computes the adapter arguments but
the `run_candle` call is commented out and `model_output` is the literal
string `hold`, which this embedding reproduces. -/
def generate_signal (pair : Pair) (model_name : String)
    (run_candle : Int → Pair → String → String) (now : Int)
    (market_event : MarketEvent) : Except StrategyError (Option Signal) :=
  match market_event.detail with
  | .BacktestCandle _ signal => .ok signal
  | .CandleDetail candle =>
      let args := (candle.open_time, pair, model_name)
      let _ := (run_candle, args)
      let model_output := "hold"
      let signals := generate_signals_map model_output
      if signals.length = 0 then .ok none
      else
        .ok (some
          { time := now
            pair := pair
            market_meta := { close := candle.close, time := now }
            signals := signals })
  | _ => .ok none

/-- Modelled from the spec: the module-level helper
`utils::remove_vec_items_from_start` lives in the missing `utils` module
body; per the spec's backtest feed description it trims the vector so the
last N candles remain, i.e. it drops `n` items from the start. -/
def remove_vec_items_from_start {α : Type} (items : List α) (n : Nat) :
    List α :=
  items.drop n

/-- The stream of market events the spawned producer task of
`src/assets/backtest_ticker.rs` sends: one `BacktestCandle` per candle
after the `buffer_n_of_candles` prefix, paired with the signal of matching
index; `signals` models the output of
`Strategy::generate_backtest_signals` (the external model batch call). -/
def backtestStream (candles : List Candle) (buffer_n_of_candles : Nat)
    (pair : Pair) (signals : List (Option Signal)) : List MarketEvent :=
  (candles.drop buffer_n_of_candles).enum.map fun ic =>
    { time := ic.2.close_time
      pair := pair
      detail := MarketEventDetail.BacktestCandle ic.2
        ((signals.get? ic.1).join) }

/-- From `src/assets/backtest_ticker.rs`: `new_ticker`. The candles are the
result of `database.fetch_all_candles(pair)` (the SQLite read), passed
explicitly. `candles.len() - last_n_candles` is an unsigned subtraction in
the source: on underflow (fewer stored candles than `last_n_candles`) the
call panics instead of returning a feed, modelled as `none`. On success the
returned receiver carries the events of `backtestStream` (an empty trimmed
vector makes the producer task panic on `first().expect`, closing the
channel with no events, which coincides with the empty stream). -/
def new_ticker (candles : List Candle) (last_n_candles : Nat)
    (buffer_n_of_candles : Nat) (pair : Pair)
    (signals : List (Option Signal)) : Option (List MarketEvent) :=
  if candles.length < last_n_candles then none
  else
    let skip_n_candles := candles.length - last_n_candles
    let trimmed := remove_vec_items_from_start candles skip_n_candles
    some (backtestStream trimmed buffer_n_of_candles pair signals)

/-- The per-stage calls the queue drain of `Trader::run`
(`src/trading/mod.rs`) makes, abstracted as functions so the ordering
theorem quantifies over their results. `none` models both "no event
generated" and a logged error (`warn!`/`log::error!`), which the source
treats alike: nothing is enqueued. `fillUpdate` is the event vector
`Portfolio::update_from_fill` returns, broadcast via `send_many`. -/
structure TraderCtx where
  pair : Pair
  generateSignal : MarketEvent → Option Signal
  marketUpdate : MarketEvent → Option PositionUpdate
  generateOrder : Signal → Option OrderEvent
  generateExitOrder : SignalForceExit → Option OrderEvent
  generateFill : OrderEvent → Option FillEvent
  fillUpdate : FillEvent → List Event

/-- One arm of the queue-drain `match` of `Trader::run`: the events pushed
to the back of the local queue and the events broadcast, in order. -/
def processEvent (ctx : TraderCtx) : Event → List Event × List Event
  | Event.Market m =>
      let sig :=
        if m.pair = ctx.pair then
          match ctx.generateSignal m with
          | some s => ([Event.SignalEvent s], [Event.SignalEvent s])
          | none => ([], [])
        else ([], [])
      let upd :=
        match ctx.marketUpdate m with
        | some pu => [Event.PositionUpdateEvent pu]
        | none => []
      (sig.1, sig.2 ++ upd)
  | Event.SignalEvent s =>
      match ctx.generateOrder s with
      | some o => ([Event.Order o], [Event.Order o])
      | none => ([], [])
  | Event.SignalForceExitEvent s =>
      match ctx.generateExitOrder s with
      | some o => ([Event.Order o], [Event.Order o])
      | none => ([], [])
  | Event.Order o =>
      match ctx.generateFill o with
      | some f => ([Event.Fill f], [Event.Fill f])
      | none => ([], [])
  | Event.Fill f => ([], ctx.fillUpdate f)
  | _ => ([], [])

/-- Weight of an event for the drain-termination measure: each processed
event only ever enqueues events of strictly smaller weight
(Market enqueues Signal, Signal/SignalForceExit enqueue Order, Order
enqueues Fill, Fill enqueues nothing). -/
def eventWeight : Event → Nat
  | Event.Market _ => 8
  | Event.SignalEvent _ => 4
  | Event.SignalForceExitEvent _ => 4
  | Event.Order _ => 2
  | _ => 1

/-- Total weight of a queue; an upper bound on the number of drain steps. -/
def queueWeight (queue : List Event) : Nat :=
  (queue.map eventWeight).sum

/-- The `while let Some(event) = self.event_queue.pop_front()` drain of
`Trader::run`: processes front events, pushing derived events to the back,
until the queue is empty. The fuel argument makes the recursion structural;
`queueWeight` of the initial queue is always enough fuel (each step
consumes at least one unit of weight), so the zero-fuel arm is unreachable
from `drainRun`. Returns the trace of processed (popped) events and the
trace of broadcast events, in order. -/
def drainEventQueue (ctx : TraderCtx) :
    Nat → List Event → List Event × List Event
  | _, [] => ([], [])
  | 0, _ :: _ => ([], [])
  | fuel + 1, e :: rest =>
      let step := processEvent ctx e
      let tail := drainEventQueue ctx fuel (rest ++ step.1)
      (e :: tail.1, step.2 ++ tail.2)

/-- The queue drain with sufficient fuel. -/
def drainRun (ctx : TraderCtx) (queue : List Event) :
    List Event × List Event :=
  drainEventQueue ctx (queueWeight queue) queue

/-- State of one Trader's cooperative loop, for the iteration structure of
`Trader::run`: the pending items of its event feed (`event_rx.try_recv`
source), the local queue, and the traces accumulated so far. -/
structure TraderState where
  feed : List Event
  queue : List Event
  processed : List Event
  emitted : List Event
deriving Repr

/-- One iteration of the `'trader_loop` of `Trader::run` (command handling
aside): `try_recv` pulls at most one feed item; on `Empty` the iteration
`continue`s without draining; on an item, the item is pushed to the back of
the local queue and the queue is drained to empty before the loop comes
back around to pull again. -/
def traderIteration (ctx : TraderCtx) (st : TraderState) : TraderState :=
  match st.feed with
  | [] => st
  | e :: feedRest =>
      let queue1 := st.queue ++ [e]
      let run := drainRun ctx queue1
      { feed := feedRest
        queue := []
        processed := st.processed ++ run.1
        emitted := st.emitted ++ run.2 }

/-- Spec-side staged trace of claim C8: the events derived from a single
Market event are processed in the order Market, then Signal, then Order,
then Fill. -/
def marketStagedProcessed (ctx : TraderCtx) (m : MarketEvent) : List Event :=
  Event.Market m ::
    match ctx.generateSignal m with
    | none => []
    | some s =>
        Event.SignalEvent s ::
          match ctx.generateOrder s with
          | none => []
          | some o =>
              Event.Order o ::
                match ctx.generateFill o with
                | none => []
                | some f => [Event.Fill f]

/-- Spec-side staged broadcast trace of claim C8: Signal, then Order, then
Fill, then the Balance/PositionExit events of `update_from_fill`
(the PositionUpdate of `update_from_market` is broadcast during the Market
stage). -/
def marketStagedEmitted (ctx : TraderCtx) (m : MarketEvent) : List Event :=
  let upd :=
    match ctx.marketUpdate m with
    | some pu => [Event.PositionUpdateEvent pu]
    | none => []
  match ctx.generateSignal m with
  | none => upd
  | some s =>
      Event.SignalEvent s :: (upd ++
        match ctx.generateOrder s with
        | none => []
        | some o =>
            Event.Order o ::
              match ctx.generateFill o with
              | none => []
              | some f => Event.Fill f :: ctx.fillUpdate f)

theorem lookupKV_insertKV_self {κ ν : Type} [DecidableEq κ]
    (l : List (κ × ν)) (k : κ) (v : ν) :
    lookupKV (insertKV l k v) k = some v := by
  induction l with
  | nil => simp [insertKV, lookupKV]
  | cons kv t ih =>
      by_cases h : kv.1 = k
      · simp [insertKV, h, lookupKV]
      · simp [insertKV, h, lookupKV, ih]

theorem lookupKV_insertKV_ne {κ ν : Type} [DecidableEq κ]
    (l : List (κ × ν)) (k k' : κ) (v : ν) (h : k' ≠ k) :
    lookupKV (insertKV l k v) k' = lookupKV l k' := by
  induction l with
  | nil => simp [insertKV, lookupKV, h, Ne.symm h]
  | cons kv t ih =>
      by_cases hk : kv.1 = k
      · subst hk
        simp [insertKV, lookupKV, h, Ne.symm h]
      · simp [insertKV, hk, lookupKV, ih, h]

theorem removeKV_of_lookup_none {κ ν : Type} [DecidableEq κ]
    (l : List (κ × ν)) (k : κ) (h : lookupKV l k = none) :
    removeKV l k = l := by
  induction l with
  | nil => simp [removeKV]
  | cons kv t ih =>
      by_cases hk : kv.1 = k
      · simp [lookupKV, hk] at h
      · simp [lookupKV, hk] at h
        simp [removeKV, hk, ih h]

theorem insertKV_of_lookup_none {κ ν : Type} [DecidableEq κ]
    (l : List (κ × ν)) (k : κ) (v : ν) (h : lookupKV l k = none) :
    insertKV l k v = l ++ [(k, v)] := by
  induction l with
  | nil => simp [insertKV]
  | cons kv t ih =>
      by_cases hk : kv.1 = k
      · simp [lookupKV, hk] at h
      · simp [lookupKV, hk] at h
        simp [insertKV, hk, ih h]

theorem mem_of_lookupKV_some {κ ν : Type} [DecidableEq κ]
    (l : List (κ × ν)) (k : κ) (v : ν) (h : lookupKV l k = some v) :
    (k, v) ∈ l := by
  induction l with
  | nil => simp [lookupKV] at h
  | cons kv t ih =>
      by_cases hk : kv.1 = k
      · simp [lookupKV, hk] at h
        have hkv : kv = (k, v) := by
          cases kv
          simp_all
        rw [hkv]
        exact List.mem_cons_self _ _
      · simp [lookupKV, hk] at h
        exact List.mem_cons_of_mem _ (ih h)

theorem mem_removeKV {κ ν : Type} [DecidableEq κ]
    (l : List (κ × ν)) (k : κ) (kv : κ × ν) (h : kv ∈ removeKV l k) :
    kv ∈ l := by
  induction l with
  | nil => simp [removeKV] at h
  | cons hd t ih =>
      by_cases hk : hd.1 = k
      · simp [removeKV, hk] at h
        exact List.mem_cons_of_mem _ h
      · simp [removeKV, hk] at h
        rcases h with h | h
        · simp [h]
        · exact List.mem_cons_of_mem _ (ih h)

theorem openEnterSum_append (l l' : List (String × Position)) :
    openEnterSum (l ++ l') = openEnterSum l + openEnterSum l' := by
  simp [openEnterSum]

theorem openEnterSum_removeKV (l : List (String × Position)) (k : String)
    (p : Position) (h : lookupKV l k = some p) :
    openEnterSum (removeKV l k) =
      openEnterSum l - (p.enter_value_gross + p.enter_fees_total) := by
  induction l with
  | nil => simp [lookupKV] at h
  | cons kv t ih =>
      by_cases hk : kv.1 = k
      · simp [lookupKV, hk] at h
        simp [removeKV, hk, openEnterSum, h]
      · simp [lookupKV, hk] at h
        simp only [removeKV, hk, if_false, openEnterSum, List.map_cons,
          List.sum_cons] at ih ⊢
        rw [ih h]
        ring

theorem openEnterSum_nonneg (l : List (String × Position))
    (h : ∀ kv ∈ l, 0 ≤ kv.2.enter_value_gross + kv.2.enter_fees_total) :
    0 ≤ openEnterSum l := by
  refine List.sum_nonneg ?_
  intro x hx
  simp only [List.mem_map] at hx
  obtain ⟨kv, hkv, rfl⟩ := hx
  exact h kv hkv

theorem get_exited_positions_set_exited (db : Database) (core_id : String)
    (p : Position) :
    (db.set_exited_position core_id p).get_exited_positions core_id =
      db.get_exited_positions core_id ++ [p] := by
  unfold Database.set_exited_position Database.get_exited_positions
  cases h : lookupKV db.closed_positions (determine_exited_positions_id core_id) with
  | none => simp [h, lookupKV_insertKV_self]
  | some closed => simp [h, lookupKV_insertKV_self]

/-- Sample entry fill (quantity 1 at price 100, exchange fee 0.1 percent),
for concrete evaluation. -/
def sampleEntryFill : FillEvent :=
  { time := 1
    asset := Pair.BTCUSDT
    market_meta := { close := 100, time := 1 }
    decision := Decision.Long
    quantity := 1
    fill_value_gross := 100
    fees := { exchange := 1/1000, slippage := 0 } }

/-- Sample exit fill (close the long at price 120), for concrete
evaluation. -/
def sampleExitFill : FillEvent :=
  { time := 2
    asset := Pair.BTCUSDT
    market_meta := { close := 120, time := 2 }
    decision := Decision.CloseLong
    quantity := -1
    fill_value_gross := 120
    fees := { exchange := 1/1000, slippage := 0 } }

/-- Sample open position of core `c`, as entered by `sampleEntryFill`. -/
def samplePosition : Position :=
  Position.enter "c" sampleEntryFill

/-- Sample stored balance of core `c`. -/
def sampleBalance : Balance :=
  { time := 1, total := 1000, available := 8999/10 }

/-- Sample database of core `c` with one open position and initialised
statistics. -/
def sampleDbOpen : Database :=
  { open_positions := [("c_BTCUSDT", samplePosition)]
    closed_positions := []
    current_balances := [("c_balance", sampleBalance)]
    statistics := [(Pair.BTCUSDT, { starting_time := 0, closed_pnls := [] })] }

/-- Sample database of core `c` with one open position and an empty
statistics map. -/
def sampleDbNoStats : Database :=
  { open_positions := [("c_BTCUSDT", samplePosition)]
    closed_positions := []
    current_balances := [("c_balance", sampleBalance)]
    statistics := [] }

/-- Sample database of core `c` with no open positions. -/
def sampleDbFlat : Database :=
  { open_positions := []
    closed_positions := []
    current_balances := [("c_balance", sampleBalance)]
    statistics := [] }

/-- Sample order in backtest conditions: placed at candle close 100,
order time 0. -/
def sampleOrder : OrderEvent :=
  { time := 0
    asset := Pair.BTCUSDT
    decision := Decision.Long
    market_meta := { close := 100, time := 5 }
    quantity := 1 }

/-- Sample exchange response whose price (50) and transact time (999)
differ from the sample order's candle close (100) and time (0). -/
def sampleExchangeResponse : ExchangeFillResponse :=
  { transact_time := 999
    executed_qty := 1
    status := "FILLED"
    fills := [{ price := 50, qty := 1, commission := 0 }] }

/-- Sample candle, for concrete evaluation. -/
def sampleCandle : Candle :=
  { open_time := 0
    close_time := 60
    openPrice := 99
    high := 101
    low := 98
    close := 100
    volume := 5
    trade_count := 10 }

/-- Sample live-candle market event. -/
def sampleLiveCandleEvent : MarketEvent :=
  { time := 60, pair := Pair.BTCUSDT, detail := MarketEventDetail.CandleDetail sampleCandle }

/-- Sample model adapter that always answers `buy`. -/
def modelAdapterAlwaysBuy : Int → Pair → String → String :=
  fun _ _ _ => "buy"

/-- Sample trader stage context whose stages all produce nothing. -/
def sampleTraderCtx : TraderCtx :=
  { pair := Pair.BTCUSDT
    generateSignal := fun _ => none
    marketUpdate := fun _ => none
    generateOrder := fun _ => none
    generateExitOrder := fun _ => none
    generateFill := fun _ => none
    fillUpdate := fun _ => [] }

/-- Sample trader state with one pending feed item. -/
def sampleTraderState : TraderState :=
  { feed := [Event.Market sampleLiveCandleEvent]
    queue := []
    processed := []
    emitted := [] }

/-- Sample candle store contents with two candles. -/
def sampleCandles : List Candle :=
  [sampleCandle, { sampleCandle with open_time := 60, close_time := 120 }]

theorem open_positions_set_balance (db : Database) (core_id : String)
    (b : Balance) :
    (db.set_balance core_id b).open_positions = db.open_positions := rfl

theorem open_positions_set_statistics (db : Database) (a : Pair)
    (s : TradingSummary) :
    (db.set_statistics a s).open_positions = db.open_positions := rfl

theorem open_positions_set_exited (db : Database) (core_id : String)
    (p : Position) :
    (db.set_exited_position core_id p).open_positions = db.open_positions := by
  unfold Database.set_exited_position
  cases h : lookupKV db.closed_positions (determine_exited_positions_id core_id) <;>
    simp [h]

theorem open_positions_set_open (db : Database) (p : Position) :
    (db.set_open_position p).open_positions =
      insertKV db.open_positions p.position_id p := rfl

theorem current_balances_set_open (db : Database) (p : Position) :
    (db.set_open_position p).current_balances = db.current_balances := rfl

theorem current_balances_set_balance (db : Database) (core_id : String)
    (b : Balance) :
    (db.set_balance core_id b).current_balances =
      insertKV db.current_balances (Balance.balance_id core_id) b := rfl

theorem closed_positions_set_open (db : Database) (p : Position) :
    (db.set_open_position p).closed_positions = db.closed_positions := rfl

theorem closed_positions_set_balance (db : Database) (core_id : String)
    (b : Balance) :
    (db.set_balance core_id b).closed_positions = db.closed_positions := rfl

theorem statistics_set_open (db : Database) (p : Position) :
    (db.set_open_position p).statistics = db.statistics := rfl

theorem statistics_set_balance (db : Database) (core_id : String)
    (b : Balance) :
    (db.set_balance core_id b).statistics = db.statistics := rfl

theorem pnlSum_append (l l' : List Position) :
    pnlSum (l ++ l') = pnlSum l + pnlSum l' := by
  simp [pnlSum]

theorem lookup_balance_of_get_balance (db : Database) (core_id : String)
    (b : Balance) (hb : db.get_balance core_id = .ok b) :
    lookupKV db.current_balances (Balance.balance_id core_id) = some b := by
  unfold Database.get_balance at hb
  cases h : lookupKV db.current_balances (Balance.balance_id core_id) <;>
    rw [h] at hb <;> simp_all

theorem update_from_fill_total_minus_closed (core_id : String)
    (fill : FillEvent) (db : Database) (b : Balance)
    (hb : db.get_balance core_id = .ok b) :
    ∃ b', (update_from_fill core_id fill db).2.get_balance core_id = .ok b' ∧
      b'.total -
          pnlSum ((update_from_fill core_id fill db).2.get_exited_positions core_id)
        = b.total - pnlSum (db.get_exited_positions core_id) := by
  unfold update_from_fill
  rw [hb]
  simp only [Database.remove_position]
  cases hrm : lookupKV db.open_positions (determine_position_id core_id fill.asset) with
  | none =>
      dsimp only
      refine ⟨Balance.mk fill.time b.total (b.available + (-(Position.enter core_id fill).enter_value_gross - (Position.enter core_id fill).enter_fees_total)), ?_, ?_⟩
      · simp [Database.set_balance, Database.get_balance, Database.set_open_position,
          lookupKV_insertKV_self]
      · simp [Database.set_balance, Database.set_open_position,
          Database.get_exited_positions]
  | some p0 =>
      dsimp only
      simp only [Database.get_statistics]
      cases hst : lookupKV db.statistics
          ((p0.exit { b with time := fill.time } fill).asset) with
      | none =>
          dsimp only
          refine ⟨b, ?_, ?_⟩
          · simp [Database.get_balance,
              lookup_balance_of_get_balance db core_id b hb]
          · simp [Database.get_exited_positions]
      | some stats0 =>
          dsimp only
          refine ⟨Balance.mk fill.time (b.total + (p0.exit { b with time := fill.time } fill).realised_profit_loss) (b.available + (p0.exit { b with time := fill.time } fill).enter_value_gross + (p0.exit { b with time := fill.time } fill).realised_profit_loss + (p0.exit { b with time := fill.time } fill).enter_fees_total), ?_, ?_⟩
          · simp [Database.set_balance, Database.get_balance,
              Database.set_exited_position, Database.set_statistics,
              lookupKV_insertKV_self]
          · rw [show ∀ dbx : Database, ∀ bal : Balance,
                (dbx.set_balance core_id bal).get_exited_positions core_id =
                  dbx.get_exited_positions core_id from
              fun _ _ => rfl]
            rw [get_exited_positions_set_exited]
            simp [pnlSum_append, Database.set_statistics,
              Database.get_exited_positions, pnlSum]

theorem update_from_fill_available_le_total (core_id : String)
    (fill : FillEvent) (db : Database) (b : Balance)
    (hb : db.get_balance core_id = .ok b)
    (hA : b.available + openEnterSum db.open_positions ≤ b.total)
    (hNN : ∀ kv ∈ db.open_positions,
      0 ≤ kv.2.enter_value_gross + kv.2.enter_fees_total)
    (hfill : NonNegFill fill) :
    ∃ b', (update_from_fill core_id fill db).2.get_balance core_id = .ok b' ∧
      b'.available +
          openEnterSum (update_from_fill core_id fill db).2.open_positions
        ≤ b'.total ∧
      ∀ kv ∈ (update_from_fill core_id fill db).2.open_positions,
        0 ≤ kv.2.enter_value_gross + kv.2.enter_fees_total := by
  obtain ⟨hg, hex, hsl⟩ := hfill
  unfold update_from_fill
  rw [hb]
  simp only [Database.remove_position]
  cases hrm : lookupKV db.open_positions (determine_position_id core_id fill.asset) with
  | none =>
      dsimp only
      refine ⟨Balance.mk fill.time b.total (b.available + (-(Position.enter core_id fill).enter_value_gross - (Position.enter core_id fill).enter_fees_total)), ?_, ?_, ?_⟩
      · simp [Database.set_balance, Database.get_balance, Database.set_open_position,
          lookupKV_insertKV_self]
      · rw [open_positions_set_balance, open_positions_set_open]
        dsimp only
        rw [removeKV_of_lookup_none _ _ hrm]
        rw [show (Position.enter core_id fill).position_id =
            determine_position_id core_id fill.asset from rfl]
        rw [insertKV_of_lookup_none _ _ _ hrm, openEnterSum_append]
        have h1 : (Position.enter core_id fill).enter_value_gross =
            fill.fill_value_gross := rfl
        have h2 : (Position.enter core_id fill).enter_fees_total =
            fill.fees.exchange * fill.fill_value_gross + fill.fees.slippage := rfl
        simp only [openEnterSum, List.map_cons, List.map_nil, List.sum_cons,
          List.sum_nil, h1, h2]
        simp only [openEnterSum] at hA
        linarith
      · rw [open_positions_set_balance, open_positions_set_open]
        dsimp only
        rw [removeKV_of_lookup_none _ _ hrm]
        rw [show (Position.enter core_id fill).position_id =
            determine_position_id core_id fill.asset from rfl]
        rw [insertKV_of_lookup_none _ _ _ hrm]
        intro kv hkv
        rcases List.mem_append.mp hkv with h | h
        · exact hNN kv h
        · simp only [List.mem_singleton] at h
          subst h
          have h1 : (Position.enter core_id fill).enter_value_gross =
              fill.fill_value_gross := rfl
          have h2 : (Position.enter core_id fill).enter_fees_total =
              fill.fees.exchange * fill.fill_value_gross + fill.fees.slippage := rfl
          simp only [h1, h2]
          have := mul_nonneg hex hg
          linarith
  | some p0 =>
      dsimp only
      simp only [Database.get_statistics]
      have hterm : 0 ≤ p0.enter_value_gross + p0.enter_fees_total :=
        hNN _ (mem_of_lookupKV_some _ _ _ hrm)
      have hsum : openEnterSum (removeKV db.open_positions
          (determine_position_id core_id fill.asset)) =
          openEnterSum db.open_positions -
            (p0.enter_value_gross + p0.enter_fees_total) :=
        openEnterSum_removeKV _ _ _ hrm
      cases hst : lookupKV db.statistics
          ((p0.exit { b with time := fill.time } fill).asset) with
      | none =>
          dsimp only
          refine ⟨b, ?_, ?_, ?_⟩
          · simp [Database.get_balance,
              lookup_balance_of_get_balance db core_id b hb]
          · dsimp only
            rw [hsum]
            linarith
          · intro kv hkv
            exact hNN kv (mem_removeKV _ _ _ hkv)
      | some stats0 =>
          dsimp only
          have hevg : (p0.exit { b with time := fill.time } fill).enter_value_gross
              = p0.enter_value_gross := rfl
          have hfee : (p0.exit { b with time := fill.time } fill).enter_fees_total
              = p0.enter_fees_total := rfl
          refine ⟨Balance.mk fill.time (b.total + (p0.exit { b with time := fill.time } fill).realised_profit_loss) (b.available + (p0.exit { b with time := fill.time } fill).enter_value_gross + (p0.exit { b with time := fill.time } fill).realised_profit_loss + (p0.exit { b with time := fill.time } fill).enter_fees_total), ?_, ?_, ?_⟩
          · simp [Database.set_balance, Database.get_balance,
              Database.set_exited_position, Database.set_statistics,
              lookupKV_insertKV_self]
          · rw [open_positions_set_balance, open_positions_set_exited,
              open_positions_set_statistics]
            dsimp only
            rw [hsum, hevg, hfee]
            linarith
          · rw [open_positions_set_balance, open_positions_set_exited,
              open_positions_set_statistics]
            dsimp only
            intro kv hkv
            exact hNN kv (mem_removeKV _ _ _ hkv)

/-- C1: for every session initialised with starting equity E (balance set to
total = available = E) and every sequence of `update_from_fill` operations
from that state, after any `update_from_fill` the stored balance satisfies
`balance.total = E + (sum of realised_pnl over all positions moved to the
closed-positions index so far)`. Stated as an invariant of every reachable
state (which covers the state after any `update_from_fill` of any such
sequence, failing calls included). -/
theorem claim_C1_total_equals_equity_plus_closed_pnl
    (core_id : String) (starting_cash : ℚ) (db : Database)
    (h : Reachable core_id starting_cash (fun _ => True) db) :
    ∃ b, db.get_balance core_id = .ok b ∧
      b.total = starting_cash + pnlSum (db.get_exited_positions core_id) := by
  induction h with
  | bootstrap now stats =>
      refine ⟨Balance.mk now starting_cash starting_cash, ?_, ?_⟩
      · simp [bootstrap_database, Database.set_balance, Database.get_balance,
          lookupKV_insertKV_self]
      · simp [bootstrap_database, Database.set_balance,
          Database.get_exited_positions, lookupKV, pnlSum]
  | step db fill hdb hfill ih =>
      obtain ⟨b, hb, htot⟩ := ih
      obtain ⟨b', hb', hpres⟩ :=
        update_from_fill_total_minus_closed core_id fill db b hb
      refine ⟨b', hb', by linarith⟩

/-- Witness for C1 at a concrete input: starting equity 1000, one entry
fill applied. -/
theorem claim_C1_total_equals_equity_plus_closed_pnl_witness :
    ∃ b, (update_from_fill "c" sampleEntryFill
        (bootstrap_database "c" 1000 0 [])).2.get_balance "c" = .ok b ∧
      b.total = 1000 + pnlSum ((update_from_fill "c" sampleEntryFill
        (bootstrap_database "c" 1000 0 [])).2.get_exited_positions "c") :=
  claim_C1_total_equals_equity_plus_closed_pnl "c" 1000 _
    (Reachable.step _ sampleEntryFill (Reachable.bootstrap 0 []) trivial)

/-- C7: in every state reachable from session initialisation
(total = available = starting equity) by any sequence of `update_from_fill`
operations, `balance.available ≤ balance.total`. The fills are the ones the
pipeline produces: `fill_value_gross = |quantity| × fill_price` is
non-negative and the configured fee parameters are non-negative
(`NonNegFill`). -/
theorem claim_C7_available_le_total
    (core_id : String) (starting_cash : ℚ) (db : Database)
    (h : Reachable core_id starting_cash NonNegFill db) :
    ∃ b, db.get_balance core_id = .ok b ∧ b.available ≤ b.total := by
  have key : ∃ b, db.get_balance core_id = .ok b ∧
      b.available + openEnterSum db.open_positions ≤ b.total ∧
      ∀ kv ∈ db.open_positions,
        0 ≤ kv.2.enter_value_gross + kv.2.enter_fees_total := by
    induction h with
    | bootstrap now stats =>
        refine ⟨Balance.mk now starting_cash starting_cash, ?_, ?_, ?_⟩
        · simp [bootstrap_database, Database.set_balance, Database.get_balance,
            lookupKV_insertKV_self]
        · simp [bootstrap_database, Database.set_balance, openEnterSum]
        · simp [bootstrap_database, Database.set_balance]
    | step db fill hdb hfill ih =>
        obtain ⟨b, hb, hA, hNN⟩ := ih
        exact update_from_fill_available_le_total core_id fill db b hb hA hNN hfill
  obtain ⟨b, hb, hA, hNN⟩ := key
  have h0 := openEnterSum_nonneg db.open_positions hNN
  exact ⟨b, hb, by linarith⟩

/-- Witness for C7 at a concrete input: starting equity 1000, one entry
fill then one exit fill applied. -/
theorem claim_C7_available_le_total_witness :
    ∃ b, (update_from_fill "c" sampleExitFill (update_from_fill "c"
        sampleEntryFill (bootstrap_database "c" 1000 0
          [(Pair.BTCUSDT, TradingSummary.mk 0 [])])).2).2.get_balance "c" = .ok b ∧
      b.available ≤ b.total :=
  claim_C7_available_le_total "c" 1000 _
    (Reachable.step _ sampleExitFill
      (Reachable.step _ sampleEntryFill
        (Reachable.bootstrap 0 [(Pair.BTCUSDT, TradingSummary.mk 0 [])])
        (by refine ⟨by norm_num [sampleEntryFill], by norm_num [sampleEntryFill], by norm_num [sampleEntryFill]⟩))
      (by refine ⟨by norm_num [sampleExitFill], by norm_num [sampleExitFill], by norm_num [sampleExitFill]⟩))

/-- C3: for every `FillEvent` that closes an existing open Position for its
pair, `update_from_fill` sets the new balance to
`available' = available + enter_value_gross + realised_pnl + enter_fees_total`
and `total' = total + realised_pnl`, persists that balance with
`time = fill.time`, and emits a Balance event after the PositionExit event.
The statistics entry for the pair is present, as `init_statistics` /
`init_core_in_db` establish at session start. -/
theorem claim_C3_exit_fill_accounting (core_id : String) (fill : FillEvent)
    (db : Database) (b : Balance) (p0 : Position) (stats0 : TradingSummary)
    (hb : db.get_balance core_id = .ok b)
    (hp : lookupKV db.open_positions (determine_position_id core_id fill.asset)
      = some p0)
    (hs : lookupKV db.statistics
      (p0.exit { b with time := fill.time } fill).asset = some stats0) :
    (update_from_fill core_id fill db).1 =
      .ok [Event.PositionExit (p0.exit { b with time := fill.time } fill),
        Event.BalanceEvent (Balance.mk fill.time (b.total + (p0.exit { b with time := fill.time } fill).realised_profit_loss) (b.available + (p0.exit { b with time := fill.time } fill).enter_value_gross + (p0.exit { b with time := fill.time } fill).realised_profit_loss + (p0.exit { b with time := fill.time } fill).enter_fees_total))] ∧
    (update_from_fill core_id fill db).2.get_balance core_id =
      .ok (Balance.mk fill.time (b.total + (p0.exit { b with time := fill.time } fill).realised_profit_loss) (b.available + (p0.exit { b with time := fill.time } fill).enter_value_gross + (p0.exit { b with time := fill.time } fill).realised_profit_loss + (p0.exit { b with time := fill.time } fill).enter_fees_total)) := by
  unfold update_from_fill
  rw [hb]
  simp only [Database.remove_position]
  rw [hp]
  dsimp only
  simp only [Database.get_statistics]
  rw [hs]
  dsimp only
  constructor
  · rfl
  · simp [Database.set_balance, Database.get_balance,
      Database.set_exited_position, Database.set_statistics,
      lookupKV_insertKV_self]

/-- Witness for C3 at a concrete input: the sample database with an open
long position, closed by the sample exit fill. -/
theorem claim_C3_exit_fill_accounting_witness :
    (update_from_fill "c" sampleExitFill sampleDbOpen).1 =
      .ok [Event.PositionExit (samplePosition.exit { sampleBalance with time := sampleExitFill.time } sampleExitFill),
        Event.BalanceEvent (Balance.mk sampleExitFill.time (sampleBalance.total + (samplePosition.exit { sampleBalance with time := sampleExitFill.time } sampleExitFill).realised_profit_loss) (sampleBalance.available + (samplePosition.exit { sampleBalance with time := sampleExitFill.time } sampleExitFill).enter_value_gross + (samplePosition.exit { sampleBalance with time := sampleExitFill.time } sampleExitFill).realised_profit_loss + (samplePosition.exit { sampleBalance with time := sampleExitFill.time } sampleExitFill).enter_fees_total))] ∧
    (update_from_fill "c" sampleExitFill sampleDbOpen).2.get_balance "c" =
      .ok (Balance.mk sampleExitFill.time (sampleBalance.total + (samplePosition.exit { sampleBalance with time := sampleExitFill.time } sampleExitFill).realised_profit_loss) (sampleBalance.available + (samplePosition.exit { sampleBalance with time := sampleExitFill.time } sampleExitFill).enter_value_gross + (samplePosition.exit { sampleBalance with time := sampleExitFill.time } sampleExitFill).realised_profit_loss + (samplePosition.exit { sampleBalance with time := sampleExitFill.time } sampleExitFill).enter_fees_total)) :=
  claim_C3_exit_fill_accounting "c" sampleExitFill sampleDbOpen sampleBalance
    samplePosition (TradingSummary.mk 0 []) rfl rfl rfl

/-- C4: for every `FillEvent` for which no open Position exists for its pair
(an entry), `update_from_fill` decreases `balance.available` by exactly
`enter_value_gross + enter_fees_total` and leaves `balance.total`
unchanged; apart from the newly created open Position, the persisted
balance (other than `available` and `time`) and all other positions and
statistics are unchanged. -/
theorem claim_C4_entry_fill_frame (core_id : String) (fill : FillEvent)
    (db : Database) (b : Balance)
    (hb : db.get_balance core_id = .ok b)
    (hp : lookupKV db.open_positions (determine_position_id core_id fill.asset)
      = none) :
    (update_from_fill core_id fill db).1 =
      .ok [Event.PositionNew (Position.enter core_id fill),
        Event.BalanceEvent (Balance.mk fill.time b.total (b.available + (-(Position.enter core_id fill).enter_value_gross - (Position.enter core_id fill).enter_fees_total)))] ∧
    b.available + (-(Position.enter core_id fill).enter_value_gross -
        (Position.enter core_id fill).enter_fees_total) =
      b.available - ((Position.enter core_id fill).enter_value_gross +
        (Position.enter core_id fill).enter_fees_total) ∧
    (update_from_fill core_id fill db).2.get_balance core_id =
      .ok (Balance.mk fill.time b.total (b.available + (-(Position.enter core_id fill).enter_value_gross - (Position.enter core_id fill).enter_fees_total))) ∧
    lookupKV (update_from_fill core_id fill db).2.open_positions
        (determine_position_id core_id fill.asset) =
      some (Position.enter core_id fill) ∧
    (∀ pid, pid ≠ determine_position_id core_id fill.asset →
      lookupKV (update_from_fill core_id fill db).2.open_positions pid =
        lookupKV db.open_positions pid) ∧
    (update_from_fill core_id fill db).2.closed_positions =
      db.closed_positions ∧
    (update_from_fill core_id fill db).2.statistics = db.statistics ∧
    (∀ key, key ≠ Balance.balance_id core_id →
      lookupKV (update_from_fill core_id fill db).2.current_balances key =
        lookupKV db.current_balances key) := by
  unfold update_from_fill
  rw [hb]
  simp only [Database.remove_position]
  rw [hp]
  dsimp only
  refine ⟨rfl, by ring, ?_, ?_, ?_, rfl, rfl, ?_⟩
  · simp [Database.set_balance, Database.set_open_position,
      Database.get_balance, lookupKV_insertKV_self]
  · rw [open_positions_set_balance, open_positions_set_open]
    dsimp only
    rw [removeKV_of_lookup_none _ _ hp]
    rw [show (Position.enter core_id fill).position_id =
        determine_position_id core_id fill.asset from rfl]
    exact lookupKV_insertKV_self _ _ _
  · intro pid hpid
    rw [open_positions_set_balance, open_positions_set_open]
    dsimp only
    rw [removeKV_of_lookup_none _ _ hp]
    rw [show (Position.enter core_id fill).position_id =
        determine_position_id core_id fill.asset from rfl]
    exact lookupKV_insertKV_ne _ _ _ _ hpid
  · intro key hkey
    rw [current_balances_set_balance, current_balances_set_open]
    dsimp only
    exact lookupKV_insertKV_ne _ _ _ _ hkey

/-- Witness for C4 at a concrete input: the sample database with no open
positions, entered by the sample entry fill. -/
theorem claim_C4_entry_fill_frame_witness :
    (update_from_fill "c" sampleEntryFill sampleDbFlat).1 =
      .ok [Event.PositionNew (Position.enter "c" sampleEntryFill),
        Event.BalanceEvent (Balance.mk sampleEntryFill.time sampleBalance.total (sampleBalance.available + (-(Position.enter "c" sampleEntryFill).enter_value_gross - (Position.enter "c" sampleEntryFill).enter_fees_total)))] ∧
    sampleBalance.available + (-(Position.enter "c" sampleEntryFill).enter_value_gross -
        (Position.enter "c" sampleEntryFill).enter_fees_total) =
      sampleBalance.available - ((Position.enter "c" sampleEntryFill).enter_value_gross +
        (Position.enter "c" sampleEntryFill).enter_fees_total) ∧
    (update_from_fill "c" sampleEntryFill sampleDbFlat).2.get_balance "c" =
      .ok (Balance.mk sampleEntryFill.time sampleBalance.total (sampleBalance.available + (-(Position.enter "c" sampleEntryFill).enter_value_gross - (Position.enter "c" sampleEntryFill).enter_fees_total))) ∧
    lookupKV (update_from_fill "c" sampleEntryFill sampleDbFlat).2.open_positions
        (determine_position_id "c" sampleEntryFill.asset) =
      some (Position.enter "c" sampleEntryFill) ∧
    (∀ pid, pid ≠ determine_position_id "c" sampleEntryFill.asset →
      lookupKV (update_from_fill "c" sampleEntryFill sampleDbFlat).2.open_positions pid =
        lookupKV sampleDbFlat.open_positions pid) ∧
    (update_from_fill "c" sampleEntryFill sampleDbFlat).2.closed_positions =
      sampleDbFlat.closed_positions ∧
    (update_from_fill "c" sampleEntryFill sampleDbFlat).2.statistics =
      sampleDbFlat.statistics ∧
    (∀ key, key ≠ Balance.balance_id "c" →
      lookupKV (update_from_fill "c" sampleEntryFill sampleDbFlat).2.current_balances key =
        lookupKV sampleDbFlat.current_balances key) :=
  claim_C4_entry_fill_frame "c" sampleEntryFill sampleDbFlat sampleBalance rfl rfl

/-- C6: for every signal map and optional open Position,
`parse_signal_decisions` returns: when a Position with side Buy
(resp. Sell) exists, the CloseLong (resp. CloseShort) entry if present and
None otherwise; when no Position exists, the Long entry if only Long is
present, the Short entry if only Short is present, and None when both or
neither entry decisions are present — i.e. it coincides with
`parseSignalDecisionsSpec`, the claim's description. -/
theorem claim_C6_parse_signal_decisions_matches_spec
    (position : Option Position) (signals : SignalsMap) :
    parse_signal_decisions position signals =
      parseSignalDecisionsSpec position signals := by
  unfold parse_signal_decisions parseSignalDecisionsSpec
  cases position with
  | none => rfl
  | some p =>
      cases hside : p.side with
      | Buy =>
          cases h : SignalsMap.get_key_value signals Decision.CloseLong <;>
            simp [hside, h]
      | Sell =>
          cases h : SignalsMap.get_key_value signals Decision.CloseShort <;>
            simp [hside, h]

/-- C9 counterexample: `update_from_fill` is not atomic. On a database
holding a balance and an open position but no statistics entry for the
pair, the call returns an error (the statistics lookup fails), yet the open
position has already been removed: the database state after the failing
call differs from the state before it. -/
theorem claim_C9_counterexample :
    (update_from_fill "c" sampleExitFill sampleDbNoStats).1 =
      .error (PortfolioError.repositoryInteraction (DatabaseError.dataMissing
        ("Statistics for " ++ Pair.toString Pair.BTCUSDT ++
          " missing on database lookup."))) ∧
    (update_from_fill "c" sampleExitFill sampleDbNoStats).2 ≠ sampleDbNoStats := by
  constructor
  · rfl
  · decide

/-- C9 amended: an `update_from_fill` call that returns an error leaves the
database either exactly as it was (balance lookup failed, or the fill was
an entry) or exactly as it was except that the open position for the
fill's pair has been removed (the statistics lookup in the exit branch
failed after `remove_position`); no other state is touched by a failing
call. -/
theorem claim_C9_amended_error_effect (core_id : String) (fill : FillEvent)
    (db : Database) (e : PortfolioError)
    (h : (update_from_fill core_id fill db).1 = .error e) :
    (update_from_fill core_id fill db).2 = db ∨
      (update_from_fill core_id fill db).2 = { db with open_positions := removeKV db.open_positions (determine_position_id core_id fill.asset) } := by
  unfold update_from_fill at h ⊢
  revert h
  cases hgb : db.get_balance core_id with
  | error e2 =>
      intro h
      exact Or.inl rfl
  | ok b =>
      simp only [Database.remove_position]
      cases hrm : lookupKV db.open_positions
          (determine_position_id core_id fill.asset) with
      | none =>
          intro h
          dsimp only at h
          exact absurd h (by simp)
      | some p0 =>
          dsimp only
          simp only [Database.get_statistics]
          cases hst : lookupKV db.statistics
              ((p0.exit { b with time := fill.time } fill).asset) with
          | none =>
              intro h
              exact Or.inr rfl
          | some stats0 =>
              intro h
              dsimp only at h
              exact absurd h (by simp)

/-- Witness for the amended C9 at a concrete input: the failing exit fill
on the statistics-free database leaves at most the open position removed. -/
theorem claim_C9_amended_error_effect_witness :
    (update_from_fill "c" sampleExitFill sampleDbNoStats).2 = sampleDbNoStats ∨
      (update_from_fill "c" sampleExitFill sampleDbNoStats).2 = { sampleDbNoStats with open_positions := removeKV sampleDbNoStats.open_positions (determine_position_id "c" sampleExitFill.asset) } :=
  claim_C9_amended_error_effect "c" sampleExitFill sampleDbNoStats
    (PortfolioError.repositoryInteraction (DatabaseError.dataMissing
      ("Statistics for " ++ Pair.toString Pair.BTCUSDT ++
        " missing on database lookup."))) rfl

/-- C2 (code divergence, evaluated at the failing input): in non-live mode
(`is_live_run = false`) `generate_fill` still submits the order to the
exchange and builds the fill from the exchange response: with candle close
100, order time 0 and quantity 1, but an exchange response of price 50 at
transact time 999, the produced fill has `fill_value_gross = 50` (not
`|quantity| × market_meta.close = 100`) and `time = 999` (not
`order.time = 0`); the computed backtest `fill_time` is discarded. -/
theorem claim_C2_backtest_fill_consults_exchange :
    generate_fill (1/1000) sampleOrder false 777 sampleExchangeResponse =
      .ok (FillEvent.mk 999 Pair.BTCUSDT (MarketMeta.mk 100 5) Decision.Long 1 50 (Fees.mk (1/1000) 0)) ∧
    (999 : Int) ≠ sampleOrder.time ∧
    (50 : ℚ) ≠ |sampleOrder.quantity| * sampleOrder.market_meta.close := by
  refine ⟨?_, by decide, by norm_num [sampleOrder]⟩
  norm_num [generate_fill, fill_order, weighted_average_price, sampleOrder,
    sampleExchangeResponse, Decision.is_entry]

/-- C5 (code divergence, evaluated at the failing input): for a live
`Candle` the source never invokes the model adapter — the `run_candle` call
is commented out and the label is the literal `hold` — so even with an
adapter that answers `buy`, `generate_signal` returns no signal; the
label-to-signal mapping itself does map `buy` to Long 1.0, `sell` to
CloseLong 1.0 and `hold` to the empty map. -/
theorem claim_C5_live_candle_adapter_ignored :
    generate_signal Pair.BTCUSDT "model" modelAdapterAlwaysBuy 60
        sampleLiveCandleEvent = .ok none ∧
    generate_signals_map "buy" = [(Decision.Long, (1 : ℚ))] ∧
    generate_signals_map "sell" = [(Decision.CloseLong, (1 : ℚ))] ∧
    generate_signals_map "hold" = [] :=
  ⟨rfl, rfl, rfl, rfl⟩

/-- C10: the backtest feed constructor `new_ticker` is well-defined exactly
under the precondition that the candle store holds at least
`last_n_candles` candles for the pair: then the unsigned subtraction
`candles.len() - last_n_candles` does not underflow and the feed of the
trimmed candles is returned; with fewer stored candles the subtraction
underflows (a panic in the source) and no feed is returned normally. -/
theorem claim_C10_new_ticker_requires_enough_candles
    (candles : List Candle) (last_n_candles buffer_n_of_candles : Nat)
    (pair : Pair) (signals : List (Option Signal)) :
    (last_n_candles ≤ candles.length →
      new_ticker candles last_n_candles buffer_n_of_candles pair signals =
        some (backtestStream
          (remove_vec_items_from_start candles (candles.length - last_n_candles))
          buffer_n_of_candles pair signals)) ∧
    (candles.length < last_n_candles →
      new_ticker candles last_n_candles buffer_n_of_candles pair signals = none) := by
  constructor
  · intro h
    simp [new_ticker, Nat.not_lt.mpr h]
  · intro h
    simp [new_ticker, h]

/-- Witness for C10 at concrete inputs: two stored candles suffice for
`last_n_candles = 2`, and underflow for `last_n_candles = 3`. -/
theorem claim_C10_new_ticker_requires_enough_candles_witness :
    (2 ≤ sampleCandles.length ∧
      new_ticker sampleCandles 2 0 Pair.BTCUSDT [] =
        some (backtestStream
          (remove_vec_items_from_start sampleCandles (sampleCandles.length - 2))
          0 Pair.BTCUSDT [])) ∧
    (sampleCandles.length < 3 ∧
      new_ticker sampleCandles 3 0 Pair.BTCUSDT [] = none) :=
  ⟨⟨by decide,
      (claim_C10_new_ticker_requires_enough_candles sampleCandles 2 0
        Pair.BTCUSDT []).1 (by decide)⟩,
    ⟨by decide,
      (claim_C10_new_ticker_requires_enough_candles sampleCandles 3 0
        Pair.BTCUSDT []).2 (by decide)⟩⟩

/-- C8: per iteration of the Trader loop, at most one new feed item is
pulled (`try_recv`), and the local event queue is then drained to empty
before the loop comes back around for the next item; the events derived
from a single Market event are processed in the order Market, then Signal,
then Order, then Fill, with the Balance/PositionExit events of the fill
broadcast last (the staged traces). -/
theorem claim_C8_trader_loop_ordering (ctx : TraderCtx) (m : MarketEvent)
    (st : TraderState) (e : Event) (feedRest : List Event)
    (hpair : m.pair = ctx.pair) (hfeed : st.feed = e :: feedRest) :
    (traderIteration ctx st).feed = feedRest ∧
    (traderIteration ctx st).queue = [] ∧
    drainRun ctx [Event.Market m] =
      (marketStagedProcessed ctx m, marketStagedEmitted ctx m) := by
  refine ⟨?_, ?_, ?_⟩
  · simp [traderIteration, hfeed]
  · simp [traderIteration, hfeed]
  · rcases hs : ctx.generateSignal m with _ | s
    · rcases hu : ctx.marketUpdate m with _ | pu <;>
        simp [drainRun, drainEventQueue, processEvent, queueWeight,
          eventWeight, marketStagedProcessed, marketStagedEmitted, hpair,
          hs, hu]
    · rcases ho : ctx.generateOrder s with _ | o
      · rcases hu : ctx.marketUpdate m with _ | pu <;>
          simp [drainRun, drainEventQueue, processEvent, queueWeight,
            eventWeight, marketStagedProcessed, marketStagedEmitted, hpair,
            hs, ho, hu]
      · rcases hf : ctx.generateFill o with _ | f
        · rcases hu : ctx.marketUpdate m with _ | pu <;>
            simp [drainRun, drainEventQueue, processEvent, queueWeight,
              eventWeight, marketStagedProcessed, marketStagedEmitted, hpair,
              hs, ho, hf, hu]
        · rcases hu : ctx.marketUpdate m with _ | pu <;>
            simp [drainRun, drainEventQueue, processEvent, queueWeight,
              eventWeight, marketStagedProcessed, marketStagedEmitted, hpair,
              hs, ho, hf, hu]

/-- Witness for C8 at a concrete input: the sample stage context and a
pending Market feed item. -/
theorem claim_C8_trader_loop_ordering_witness :
    (traderIteration sampleTraderCtx sampleTraderState).feed = [] ∧
    (traderIteration sampleTraderCtx sampleTraderState).queue = [] ∧
    drainRun sampleTraderCtx [Event.Market sampleLiveCandleEvent] =
      (marketStagedProcessed sampleTraderCtx sampleLiveCandleEvent,
        marketStagedEmitted sampleTraderCtx sampleLiveCandleEvent) :=
  claim_C8_trader_loop_ordering sampleTraderCtx sampleLiveCandleEvent
    sampleTraderState (Event.Market sampleLiveCandleEvent) [] rfl rfl

end Meshetar
